import Mathlib

/-!
Shallow embedding of `maskedtabtransformertf/models/fttransformer.py`.

Tensors are modelled as nested lists over `ℚ` (the claims under study concern
shapes, ordering and dataflow, not floating-point rounding):
`Tensor2` is a `(batch, k)` tensor, `Tensor3` a `(batch, seq, emb)` tensor and
`Tensor4` a `(batch, heads, seq, seq)` attention-weight tensor.  Well-formed
TF tensors are rectangular; the theorems carry the shape hypotheses they need.

The external collaborators named by the spec (§1, §6) — the attention-block
primitive `TransformerBlock`, the column-embedding layers `CEmbedding` /
`NEmbedding` (all imported from the separate `tabtransformertf` package) and
the Keras `Dense` layer — are modelled as black-box function bundles obeying
exactly the interface contracts the spec fixes for them.
-/

abbrev Tensor1 := List ℚ
abbrev Tensor2 := List (List ℚ)
abbrev Tensor3 := List (List (List ℚ))
abbrev Tensor4 := List (List (List (List ℚ)))

/-- Input batch: a mapping from feature name to a `(batch, k)` tensor of raw
values, listed in mapping-iteration (Python dict insertion) order. -/
abbrev Batch := List (String × Tensor2)

-- `Except` equality is decidable componentwise (needed to evaluate the
-- embedded fallible functions on concrete inputs).
deriving instance DecidableEq for Except

/-- Python exceptions surfaced by the embedded code. -/
inductive PyError where
  | keyError (k : String)
  | attributeError (a : String)
  | valueError (m : String)
  deriving DecidableEq, Repr

/-- Embeds `inputs[c]` on the batch dict: `KeyError` when the column is missing. -/
def lookupKey (f : String) (inputs : Batch) : Except PyError Tensor2 :=
  match List.lookup f inputs with
  | some t => Except.ok t
  | none => Except.error (PyError.keyError f)

/-- Last-axis index `0` of a `(batch, k)` tensor: the effect, per feature, of
`tf.stack(xs, axis=1)[:, :, 0]` (source lines 105 and 114).  Indexing an empty
last axis is a runtime error in TF. -/
def sliceCol0 : Tensor2 → Except PyError Tensor1
  | [] => Except.ok []
  | row :: rest =>
    match row with
    | [] => Except.error (PyError.valueError ("index 0 out of range"))
    | q :: _ => (sliceCol0 rest).map fun vs => q :: vs

/-- The component-0 column of one named feature: `inputs[f]`, then last-axis
index `0`. -/
def featureCol0 (f : String) (inputs : Batch) : Except PyError Tensor1 := do
  sliceCol0 (← lookupKey f inputs)

/-- Gather the named features in schema order: the per-feature columns of
`tf.stack([inputs[c] for c in fs], axis=1)[:, :, 0]`, feature-major. -/
def gatherRaw : List String → Batch → Except PyError (List Tensor1)
  | [], _ => Except.ok []
  | f :: fs, inputs => do
    let v ← featureCol0 f inputs
    let rest ← gatherRaw fs inputs
    Except.ok (v :: rest)

/-- Embeds `tf.stack([inputs[c] for c in fs], axis=1)[:, :, 0]` as a `(batch, n)`
tensor (source lines 101-105 / 111-114). -/
def gatherCols (fs : List String) (inputs : Batch) : Except PyError Tensor2 :=
  (gatherRaw fs inputs).map List.transpose

/-- Embeds `tf.concat(ts, axis=1)` along the sequence axis (source line 119); TF
rejects an empty operand list. -/
def tfConcatAxis1 : List Tensor3 → Except PyError Tensor3
  | [] => Except.error (PyError.valueError ("concat requires at least one tensor"))
  | t :: ts => Except.ok ((List.transpose (t :: ts)).map List.flatten)

/-- Elementwise sum of two vectors (rectangular tensors in TF). -/
def vecAdd (a b : Tensor1) : Tensor1 := List.zipWith (· + ·) a b

/-- Sum of a list of equal-length vectors, as `tf.reduce_sum` over a stacked
axis of size ≥ 1. -/
def sumVecs : List Tensor1 → Tensor1
  | [] => []
  | [v] => v
  | v :: vs => vecAdd v (sumVecs vs)

/-- Elementwise sum of two matrices. -/
def matAdd (a b : Tensor2) : Tensor2 := List.zipWith vecAdd a b

/-- Sum of a list of equal-shape matrices, as `tf.reduce_sum(tf.stack ·, axis=0)`
(source line 134). -/
def sumMats : List Tensor2 → Tensor2
  | [] => []
  | [m] => m
  | m :: ms => matAdd m (sumMats ms)

/-- Elementwise division of a matrix by a scalar (source lines 134-136). -/
def matDivScalar (t : Tensor2) (c : ℚ) : Tensor2 := t.map fun r => r.map (· / c)

/-- Embeds `att_weights[:, :, 0, :]` (source line 128): the attention row paid from
the first sequence position, per batch element and head. -/
def row0Slice (w : Tensor4) : Tensor3 := w.map fun wb => wb.map fun wh => wh.headD []

/-- Embeds `tf.reduce_sum(·, axis=1)` over the heads axis of a `(batch, heads, seq)`
tensor (source lines 127-128). -/
def headsSum (t : Tensor3) : Tensor2 := t.map sumVecs

/-- External collaborator (spec §6): the categorical Column Embedding Layer,
`embed : (batch, n_cols) → (batch, n_cols, embedding_dim)`.  Black box. -/
structure CEmbedding where
  emb : Tensor2 → Tensor3

/-- External collaborator (spec §6): the numerical Column Embedding Layer,
`embed : (batch, n_cols) → (batch, n_cols, embedding_dim)`.  Black box. -/
structure NEmbedding where
  emb : Tensor2 → Tensor3

/-- External collaborator (spec §6): the Attention Block.  One call on a
sequence `x` yields the transformed sequence `transform x`, and, in
explainable mode, additionally the attention weights `attWeights x` of shape
`(batch, heads, seq, seq)` from the same call. -/
structure TransformerBlock where
  transform : Tensor3 → Tensor3
  attWeights : Tensor3 → Tensor4

/-- External collaborator: the Keras `Dense(units)` layer, `x ↦ x·W + b`,
whose output width is always `units`. -/
structure DenseLayer where
  units : Nat
  weight : Tensor2
  bias : Tensor1

def DenseLayer.apply (d : DenseLayer) (x : Tensor2) : Tensor2 :=
  x.map fun row => (List.range d.units).map fun j =>
    (List.zipWith (fun xi wrow => xi * List.getD wrow j 0) row d.weight).sum +
      List.getD d.bias j 0

/-- State stored by `FTTransformerEncoder.__init__` (source lines 50-92). -/
structure FTTransformerEncoder where
  categorical : List String
  numerical : List String
  numerical_embedding_type : String
  embedding_dim : Nat
  explainable : Bool
  depth : Nat
  heads : Nat
  numerical_embeddings : Option NEmbedding
  categorical_embeddings : Option CEmbedding
  transformers : List TransformerBlock

/-- Embeds `FTTransformerEncoder.__init__` (source lines 50-92): store the schema and
hyperparameters, build the numerical embedding only when `numerical_features`
is nonempty and the categorical embedding only when `categorical_features` is
nonempty, and build `depth` transformer blocks.  The constructors of the
external `NEmbedding` / `CEmbedding` / `TransformerBlock` collaborators are
passed in as black boxes (they may raise).  No schema validation happens here. -/
def FTTransformerEncoder.init
    (categorical_features numerical_features : List String)
    (numerical_embedding_type : String) (embedding_dim depth heads : Nat)
    (explainable : Bool)
    (mkNEmb : Unit → Except PyError NEmbedding)
    (mkCEmb : Unit → Except PyError CEmbedding)
    (mkBlock : Nat → TransformerBlock) :
    Except PyError FTTransformerEncoder := do
  let numerical_embeddings ←
    if numerical_features.length > 0 then do
      Except.ok (some (← mkNEmb ()))
    else Except.ok none
  let categorical_embeddings ←
    if categorical_features.length > 0 then do
      Except.ok (some (← mkCEmb ()))
    else Except.ok none
  Except.ok
    { categorical := categorical_features
      numerical := numerical_features
      numerical_embedding_type := numerical_embedding_type
      embedding_dim := embedding_dim
      explainable := explainable
      depth := depth
      heads := heads
      numerical_embeddings := numerical_embeddings
      categorical_embeddings := categorical_embeddings
      transformers := (List.range depth).map mkBlock }

/-- Lines 95-119 of `FTTransformerEncoder.call`: gather the schema columns
(categorical block first, numerical block second), embed each block, and
concatenate the embedded blocks along the sequence axis. -/
def FTTransformerEncoder.inputSeq (enc : FTTransformerEncoder) (inputs : Batch) :
    Except PyError Tensor3 := do
  let catPart ←
    if enc.categorical.length > 0 then do
      let cat_input ← gatherCols enc.categorical inputs
      match enc.categorical_embeddings with
      | some cemb => Except.ok [cemb.emb cat_input]
      | none => Except.error (PyError.attributeError ("categorical_embeddings"))
    else Except.ok []
  let numPart ←
    if enc.numerical.length > 0 then do
      let num_input ← gatherCols enc.numerical inputs
      match enc.numerical_embeddings with
      | some nemb => Except.ok [nemb.emb num_input]
      | none => Except.error (PyError.attributeError ("numerical_embeddings"))
    else Except.ok []
  tfConcatAxis1 (catPart ++ numPart)

/-- The non-explainable transformer loop (source lines 123, 130). -/
def runBlocks : List TransformerBlock → Tensor3 → Tensor3
  | [], x => x
  | t :: ts, x => runBlocks ts (t.transform x)

/-- The explainable transformer loop (source lines 123-128): each iteration
transforms the sequence and appends
`tf.reduce_sum(att_weights[:, :, 0, :], axis=1)` to the `importances` list. -/
def runBlocksExpl : List TransformerBlock → Tensor3 → Tensor3 × List Tensor2
  | [], x => (x, [])
  | t :: ts, x =>
    let imp := headsSum (row0Slice (t.attWeights x))
    let r := runBlocksExpl ts (t.transform x)
    (r.1, imp :: r.2)

/-- Embeds `FTTransformerEncoder.call` (source lines 95-139).  In explainable mode the
encoder returns the final sequence together with
`sum(importances) / (depth * heads)`; otherwise only the final sequence (the
Python single return value is modelled as importance component `none`). -/
def FTTransformerEncoder.call (enc : FTTransformerEncoder) (inputs : Batch) :
    Except PyError (Tensor3 × Option Tensor2) := do
  let x ← enc.inputSeq inputs
  if enc.explainable then
    let r := runBlocksExpl enc.transformers x
    Except.ok (r.1, some (matDivScalar (sumMats r.2) ((enc.depth * enc.heads : Nat) : ℚ)))
  else
    Except.ok (runBlocks enc.transformers x, none)

/-- The constructor arguments of `FTTransformer.__init__` other than `encoder`
(source lines 143-159).  `categorical_lookup` and `numerical_embeddings` are
accepted by the signature but never read by the constructor body. -/
structure FTArgs where
  out_dim : Nat
  out_activation : String
  categorical_features : Option (List String)
  numerical_features : Option (List String)
  categorical_lookup : Option Unit
  embedding_dim : Nat
  depth : Nat
  heads : Nat
  attn_dropout : ℚ
  ff_dropout : ℚ
  numerical_embedding_type : Option String
  numerical_embeddings : Option Unit
  explainable : Bool

/-- State stored by `FTTransformer.__init__` (source lines 160-182): the
encoder, the feature count, and the reconstruction head.  `embedding_dim` is
NOT among the stored attributes, although `call` (line 192) reads
`self.embedding_dim`. -/
structure FTTransformer where
  encoder : FTTransformerEncoder
  num_features : Nat
  masked_predictions_layer : DenseLayer

/-- Embeds `FTTransformer.__init__` (source lines 143-182): when an `encoder` object
is supplied it is used as-is and every architecture argument is ignored;
otherwise an encoder is built from the arguments (`buildEncoder` stands for
that construction, a black box here — note the source even omits the required
data arguments in that branch).  `num_features` is the schema size of the
resulting encoder, and the reconstruction head is `Dense(units=num_features)`
(`mkDense` stands for the Keras `Dense` constructor). -/
def FTTransformer.init (args : FTArgs) (encoder : Option FTTransformerEncoder)
    (buildEncoder : FTArgs → Except PyError FTTransformerEncoder)
    (mkDense : Nat → DenseLayer) : Except PyError FTTransformer := do
  let enc ←
    match encoder with
    | some e => Except.ok e
    | none => buildEncoder args
  let nf := enc.numerical.length + enc.categorical.length
  Except.ok
    { encoder := enc
      num_features := nf
      masked_predictions_layer := mkDense nf }

/-- The result bundle `FTTransformer.call` is documented to return
(source lines 195-201). -/
structure OutputBundle where
  masked_preds : Tensor2
  importances : Option Tensor2
  deriving DecidableEq, Repr

/-- Embeds `FTTransformer.call` (source lines 185-201).  After the encoder pass
(and the debug `print` of line 191), line 192 evaluates
`self.num_features * self.embedding_dim`; `embedding_dim` was never assigned
by `__init__`, so Python raises `AttributeError` there, before any output
bundle is built. -/
def FTTransformer.call (m : FTTransformer) (inputs : Batch) :
    Except PyError OutputBundle := do
  let _encoded ← m.encoder.call inputs
  Except.error (PyError.attributeError ("embedding_dim"))

/-- Embeds `y_true - y_pred` on equal-shape tensors. -/
def tfSub (a b : Tensor2) : Tensor2 := List.zipWith (List.zipWith (· - ·)) a b

/-- Embeds `tf.square`. -/
def tfSquare (t : Tensor2) : Tensor2 := t.map fun r => r.map fun q => q * q

/-- Embeds `tf.reduce_mean`: the sum of all elements divided by their count. -/
def tfReduceMean (t : Tensor2) : ℚ :=
  (t.map List.sum).sum / ((t.map List.length).sum : ℚ)

/-- Embeds `FTTransformer.masked_mse` (source lines 203-204):
`tf.reduce_mean(tf.square(y_true - y_pred))`. -/
def FTTransformer.masked_mse (y_true y_pred : Tensor2) : ℚ :=
  tfReduceMean (tfSquare (tfSub y_true y_pred))

/-- Line 216 of `FTTransformer.train_step`:
`tf.cast(tf.concat(list(y.values()), axis=-1), 'float32')` — the batch's value
tensors concatenated along the last axis in mapping-iteration order (a cast to
float is the identity in this rational-valued model). -/
def FTTransformer.trainStepTarget (data : Batch) : Tensor2 :=
  (List.transpose (data.map Prod.snd)).map List.flatten

/-! ## Spec-side formulations (used to state refinement claims) -/

/-- Spec formulation (spec §3, "Reconstruction Target"): the concatenation, in
schema order (categorical block then numerical block), of the raw values of
every column per example. -/
def schemaOrderTarget (cats nums : List String) (data : Batch) : Tensor2 :=
  (List.transpose ((cats ++ nums).map fun f => (List.lookup f data).getD [])).map
    List.flatten

/-- The input sequence fed to each transformer block, in block order, paired
with the block itself. -/
def blockTrace : List TransformerBlock → Tensor3 → List (TransformerBlock × Tensor3)
  | [], _ => []
  | t :: ts, x => (t, x) :: blockTrace ts (t.transform x)

/-- Spec formulation (spec §4.1 step 4): per-block attention row from the first
sequence position, summed across heads, summed over all blocks, divided by
`depth * heads`. -/
def specImportances (blocks : List TransformerBlock) (depth heads : Nat)
    (x : Tensor3) : Tensor2 :=
  matDivScalar
    (sumMats ((blockTrace blocks x).map fun p => headsSum (row0Slice (p.1.attWeights p.2))))
    ((depth * heads : Nat) : ℚ)

/-- Spec formulation (spec §4.2, "Loss"): the mean over all elements of the
squared difference, no position weighted differently from any other. -/
def specMeanSqError (y_true y_pred : Tensor2) : ℚ :=
  (((y_true.flatten.zip y_pred.flatten).map fun p => (p.1 - p.2) * (p.1 - p.2)).sum) /
    (((y_true.flatten.zip y_pred.flatten).length : Nat) : ℚ)

/-! ## Concrete instantiations of the external collaborators

Used to evaluate the embedded program on the spec's §8 example scenario
(schema: categorical `city`, numerical `age`; `embedding_dim` 4, depth 1,
heads 2). -/

/-- A concrete categorical embedding: value `v` ↦ the vector `[v, v, v, v]`. -/
def cEmb4 : CEmbedding := ⟨fun t => t.map fun r => r.map fun q => [q, q, q, q]⟩

/-- A concrete numerical embedding: value `v` ↦ the vector `[v, v, v, v]`. -/
def nEmb4 : NEmbedding := ⟨fun t => t.map fun r => r.map fun q => [q, q, q, q]⟩

/-- A concrete attention block: identity transform and all-ones attention
weights of shape `(batch, 2, seq, seq)` (two heads). -/
def idBlock : TransformerBlock :=
  ⟨fun x => x,
   fun x => x.map fun xb =>
     [xb.map fun _ => xb.map fun _ => (1 : ℚ), xb.map fun _ => xb.map fun _ => (1 : ℚ)]⟩

/-- The §8 example encoder: `categorical = [city]`, `numerical = [age]`,
`embedding_dim = 4`, `depth = 1`, `heads = 2`, `explainable = False`. -/
def encScenario : FTTransformerEncoder :=
  { categorical := ["city"]
    numerical := ["age"]
    numerical_embedding_type := "linear"
    embedding_dim := 4
    explainable := false
    depth := 1
    heads := 2
    numerical_embeddings := some nEmb4
    categorical_embeddings := some cEmb4
    transformers := [idBlock] }

/-- The same encoder with `explainable = True` (§8, second example scenario). -/
def encScenarioExpl : FTTransformerEncoder := { encScenario with explainable := true }

/-- A concrete reconstruction head with `units = 2`. -/
def denseScenario : DenseLayer := ⟨2, [[1, 0], [0, 1]], [0, 0]⟩

/-- The §8 example model around `encScenario` (`num_features = 2`). -/
def modelScenario : FTTransformer := ⟨encScenario, 2, denseScenario⟩

/-- The §8 example model around `encScenarioExpl`. -/
def modelScenarioExpl : FTTransformer := ⟨encScenarioExpl, 2, denseScenario⟩

/-- The §8 example batch, with the rank-2 value tensors `call` requires. -/
def batchScenario : Batch := [("city", [[0]]), ("age", [[25]])]

/-- The embedded input sequence of `batchScenario` under `encScenario`. -/
def xScenario : Tensor3 := [[[0, 0, 0, 0], [25, 25, 25, 25]]]

/-- An `NEmbedding` constructor that raises (to witness that it is not called). -/
def mkNEmbFail : Unit → Except PyError NEmbedding :=
  fun _ => Except.error (PyError.valueError ("NEmbedding constructor called"))

/-- A `CEmbedding` constructor that raises (to witness that it is not called). -/
def mkCEmbFail : Unit → Except PyError CEmbedding :=
  fun _ => Except.error (PyError.valueError ("CEmbedding constructor called"))

/-- The encoder state produced by `__init__` on an empty schema. -/
def encEmpty : FTTransformerEncoder :=
  { categorical := []
    numerical := []
    numerical_embedding_type := "linear"
    embedding_dim := 32
    explainable := false
    depth := 4
    heads := 8
    numerical_embeddings := none
    categorical_embeddings := none
    transformers := (List.range 4).map fun _ => idBlock }


/-! ## Helper lemmas -/

/-- Looking up, in order, each key of an association list with distinct keys
recovers exactly its list of values. -/
theorem lookup_map_fst_eq_map_snd (data : Batch)
    (hnodup : (data.map Prod.fst).Nodup) :
    (data.map Prod.fst).map (fun f => (List.lookup f data).getD []) =
      data.map Prod.snd := by
  induction data with
  | nil => rfl
  | cons hd tl ih =>
    obtain ⟨f, v⟩ := hd
    simp only [List.map_cons, List.nodup_cons] at hnodup ⊢
    refine List.cons_eq_cons.mpr ⟨?_, ?_⟩
    · simp [List.lookup]
    · have hmem : ∀ g ∈ tl.map Prod.fst,
          (List.lookup g ((f, v) :: tl)).getD [] = (List.lookup g tl).getD [] := by
        intro g hg
        have hne : g ≠ f := fun h => hnodup.1 (h ▸ hg)
        simp [List.lookup, beq_eq_false_iff_ne.mpr hne]
      rw [List.map_congr_left hmem, ih hnodup.2]

/-! ## Claim theorems -/

/-- Claim C1 (code bug).  The claim says the forward pass of the Masked
Reconstruction Model returns a `masked_preds` vector of length `num_features`.
On the source as written it cannot: `FTTransformer.__init__` (lines 160-182)
never assigns `self.embedding_dim`, yet `call` reads it on line 192, so every
forward pass raises `AttributeError` after the encoder pass succeeds.  This
theorem evaluates the embedded model on the spec's §8 example scenario:
the encoder succeeds, and `call` ends in the `AttributeError`. -/
theorem C1_forward_raises_attribute_error :
    FTTransformer.call modelScenario batchScenario =
      Except.error (PyError.attributeError ("embedding_dim")) ∧
    (FTTransformerEncoder.call encScenario batchScenario).isOk = true :=
  ⟨rfl, rfl⟩

/-- Claim C6 (code bug).  The claim says `masked_preds` is bitwise-identical
with `explainable` on vs off.  The code returns no `masked_preds` at all in
either mode: with the same parameters and the §8 example batch, both the
explainable and the non-explainable model raise `AttributeError` at line 192
(`self.embedding_dim` was never assigned), so there is no reconstruction
vector to compare. -/
theorem C6_forward_error_in_both_modes :
    FTTransformer.call modelScenarioExpl batchScenario =
      Except.error (PyError.attributeError ("embedding_dim")) ∧
    FTTransformer.call modelScenario batchScenario =
      Except.error (PyError.attributeError ("embedding_dim")) :=
  ⟨rfl, rfl⟩

/-- Claim C3, counterexample.  The claim says constructing an encoder with an
empty schema (zero total features) fails at construction time.  It does not:
`FTTransformerEncoder.__init__` performs no validation, skips both embedding
constructors (here instantiated with always-raising stubs, to witness that
they are not even invoked) and returns normally. -/
theorem C3_counterexample_construction_succeeds :
    (FTTransformerEncoder.init [] [] ("linear") 32 4 8 false
      mkNEmbFail mkCEmbFail (fun _ => idBlock)).isOk = true :=
  rfl

/-- Claim C3, amended: constructing an encoder whose categorical and numerical
feature lists are both empty succeeds; the zero-features failure surfaces only
at call time, when `tf.concat` (line 119) rejects the empty list of embedded
inputs — for every input batch. -/
theorem C3_zero_features_fails_at_call_time :
    FTTransformerEncoder.init [] [] ("linear") 32 4 8 false
        mkNEmbFail mkCEmbFail (fun _ => idBlock) = Except.ok encEmpty ∧
    ∀ inputs : Batch, FTTransformerEncoder.call encEmpty inputs =
      Except.error (PyError.valueError ("concat requires at least one tensor")) :=
  ⟨rfl, fun _ => rfl⟩

/-- Claim C10.  When a pre-built encoder object is supplied,
`FTTransformer.__init__` ignores every other architecture argument — any two
argument bundles produce identical model state — and `num_features` is derived
solely from the supplied encoder's feature lists. -/
theorem C10_prebuilt_encoder_ignores_args (a1 a2 : FTArgs)
    (e : FTTransformerEncoder)
    (buildEncoder : FTArgs → Except PyError FTTransformerEncoder)
    (mkDense : Nat → DenseLayer) :
    FTTransformer.init a1 (some e) buildEncoder mkDense =
      FTTransformer.init a2 (some e) buildEncoder mkDense ∧
    FTTransformer.init a1 (some e) buildEncoder mkDense =
      Except.ok
        { encoder := e
          num_features := e.numerical.length + e.categorical.length
          masked_predictions_layer := mkDense (e.numerical.length + e.categorical.length) } :=
  ⟨rfl, rfl⟩

/-- Claim C2, counterexample.  The claim says the target built by `train_step`
equals the schema-order (categorical-then-numerical) concatenation of the
per-column values regardless of the mapping-iteration order of the batch's
keys.  It does not: line 216 concatenates `list(y.values())` in
mapping-iteration order.  With schema `categorical = [city]`,
`numerical = [age]` and the batch presenting `age` first, the built target is
`[[25, 7]]` while the schema-order concatenation is `[[7, 25]]`. -/
theorem C2_counterexample_iteration_order :
    FTTransformer.trainStepTarget [("age", [[25]]), ("city", [[7]])] ≠
      schemaOrderTarget ["city"] ["age"] [("age", [[25]]), ("city", [[7]])] := by
  decide

/-- Claim C2, amended: the target built by `train_step` is the concatenation of
the batch's values in mapping-iteration order; it equals the schema-order
(categorical-then-numerical) concatenation of the per-column values exactly
when the batch's keys iterate in that schema order (all schema names distinct). -/
theorem C2_target_schema_order (cats nums : List String) (data : Batch)
    (hkeys : data.map Prod.fst = cats ++ nums)
    (hnodup : (cats ++ nums).Nodup) :
    FTTransformer.trainStepTarget data = schemaOrderTarget cats nums data := by
  unfold FTTransformer.trainStepTarget schemaOrderTarget
  rw [← hkeys] at hnodup ⊢
  rw [lookup_map_fst_eq_map_snd data hnodup]

/-- Witness for `C2_target_schema_order` at a concrete batch whose keys
iterate in schema order. -/
theorem C2_target_schema_order_witness :
    ([("city", [[(7 : ℚ)]]), ("age", [[25]])].map Prod.fst = ["city"] ++ ["age"]) ∧
    (["city"] ++ ["age"] : List String).Nodup ∧
    FTTransformer.trainStepTarget [("city", [[7]]), ("age", [[25]])] =
      schemaOrderTarget ["city"] ["age"] [("city", [[7]]), ("age", [[25]])] :=
  ⟨by decide, by decide,
    C2_target_schema_order ["city"] ["age"] [("city", [[7]]), ("age", [[25]])]
      (by decide) (by decide)⟩

/-- Monad bind on a successful `Except` computation just continues. -/
theorem except_ok_bind {e a b : Type} (v : a) (f : a → Except e b) :
    (Except.ok v : Except e a) >>= f = f v :=
  rfl

/-- The imperative accumulation of the explainable loop equals the direct
per-block formula: final sequence as in the plain loop, importances as the
per-block head-summed first-position rows in block order. -/
theorem runBlocksExpl_eq (blocks : List TransformerBlock) (x : Tensor3) :
    runBlocksExpl blocks x =
      (runBlocks blocks x,
        (blockTrace blocks x).map fun p => headsSum (row0Slice (p.1.attWeights p.2))) := by
  induction blocks generalizing x with
  | nil => rfl
  | cons t ts ih => simp [runBlocksExpl, runBlocks, blockTrace, ih]

/-- Claim C4.  For an explainable encoder, `call` returns the final sequence
alongside importances equal to the spec's formula: per-block attention row
from the first sequence position, summed across heads, accumulated over all
blocks, divided by `depth * heads`.  With explainability disabled, only the
final sequence is returned. -/
theorem C4_importances_formula (enc : FTTransformerEncoder) (inputs : Batch)
    (x : Tensor3) (hx : enc.inputSeq inputs = Except.ok x) :
    (enc.explainable = true →
      enc.call inputs =
        Except.ok (runBlocks enc.transformers x,
          some (specImportances enc.transformers enc.depth enc.heads x))) ∧
    (enc.explainable = false →
      enc.call inputs = Except.ok (runBlocks enc.transformers x, none)) := by
  constructor <;> intro hexp <;>
    simp [FTTransformerEncoder.call, hx, hexp, runBlocksExpl_eq, specImportances,
      except_ok_bind]

/-- Witness for `C4_importances_formula` on the §8 explainable scenario. -/
theorem C4_importances_formula_witness :
    encScenarioExpl.inputSeq batchScenario = Except.ok xScenario ∧
    ((encScenarioExpl.explainable = true →
      encScenarioExpl.call batchScenario =
        Except.ok (runBlocks encScenarioExpl.transformers xScenario,
          some (specImportances encScenarioExpl.transformers encScenarioExpl.depth
            encScenarioExpl.heads xScenario))) ∧
     (encScenarioExpl.explainable = false →
      encScenarioExpl.call batchScenario =
        Except.ok (runBlocks encScenarioExpl.transformers xScenario, none))) :=
  ⟨rfl, C4_importances_formula encScenarioExpl batchScenario xScenario rfl⟩

/-- Extensionality: `featureCol0` depends on the batch only through the lookup of `f`. -/
theorem featureCol0_ext (f : String) (b1 b2 : Batch)
    (h : List.lookup f b1 = List.lookup f b2) :
    featureCol0 f b1 = featureCol0 f b2 := by
  unfold featureCol0 lookupKey
  rw [h]

/-- Extensionality: `gatherRaw` depends on the batch only through the gathered columns. -/
theorem gatherRaw_ext (fs : List String) (b1 b2 : Batch)
    (h : ∀ f ∈ fs, featureCol0 f b1 = featureCol0 f b2) :
    gatherRaw fs b1 = gatherRaw fs b2 := by
  induction fs with
  | nil => rfl
  | cons f fs ih =>
    unfold gatherRaw
    simp only [h f (List.mem_cons_self f fs),
      ih fun g hg => h g (List.mem_cons_of_mem f hg)]

/-- Extensionality: `gatherCols` depends on the batch only through the gathered columns. -/
theorem gatherCols_ext (fs : List String) (b1 b2 : Batch)
    (h : ∀ f ∈ fs, featureCol0 f b1 = featureCol0 f b2) :
    gatherCols fs b1 = gatherCols fs b2 := by
  unfold gatherCols
  rw [gatherRaw_ext fs b1 b2 h]

/-- The embedded input sequence depends on the batch only through the
component-0 columns of the schema features. -/
theorem inputSeq_ext (enc : FTTransformerEncoder) (b1 b2 : Batch)
    (hcat : ∀ f ∈ enc.categorical, featureCol0 f b1 = featureCol0 f b2)
    (hnum : ∀ f ∈ enc.numerical, featureCol0 f b1 = featureCol0 f b2) :
    enc.inputSeq b1 = enc.inputSeq b2 := by
  unfold FTTransformerEncoder.inputSeq
  simp only [gatherCols_ext enc.categorical b1 b2 hcat,
    gatherCols_ext enc.numerical b1 b2 hnum]

/-- The encoder output depends on the batch only through the component-0
columns of the schema features. -/
theorem call_ext (enc : FTTransformerEncoder) (b1 b2 : Batch)
    (hcat : ∀ f ∈ enc.categorical, featureCol0 f b1 = featureCol0 f b2)
    (hnum : ∀ f ∈ enc.numerical, featureCol0 f b1 = featureCol0 f b2) :
    enc.call b1 = enc.call b2 := by
  unfold FTTransformerEncoder.call
  rw [inputSeq_ext enc b1 b2 hcat hnum]

/-- The model forward pass depends on the batch only through the component-0
columns of the schema features. -/
theorem modelCall_ext (m : FTTransformer) (b1 b2 : Batch)
    (hcat : ∀ f ∈ m.encoder.categorical, featureCol0 f b1 = featureCol0 f b2)
    (hnum : ∀ f ∈ m.encoder.numerical, featureCol0 f b1 = featureCol0 f b2) :
    m.call b1 = m.call b2 := by
  unfold FTTransformer.call
  rw [call_ext m.encoder b1 b2 hcat hnum]

/-- A key that appears in neither batch looks up to `none` in both. -/
theorem lookup_eq_none_of_not_mem_keys (k : String) (b : Batch)
    (h : k ∉ b.map Prod.fst) : List.lookup k b = none := by
  induction b with
  | nil => rfl
  | cons hd tl ih =>
    obtain ⟨f, v⟩ := hd
    simp only [List.map_cons, List.mem_cons, not_or] at h
    simp [List.lookup, beq_eq_false_iff_ne.mpr h.1, ih h.2]

/-- Agreement of the lookups on the keys of either batch extends to agreement
on every key. -/
theorem lookup_ext_of_keys (b1 b2 : Batch)
    (h : ∀ k ∈ b1.map Prod.fst ++ b2.map Prod.fst,
      List.lookup k b1 = List.lookup k b2) :
    ∀ k, List.lookup k b1 = List.lookup k b2 := by
  intro k
  by_cases hk : k ∈ b1.map Prod.fst ++ b2.map Prod.fst
  · exact h k hk
  · rw [List.mem_append, not_or] at hk
    rw [lookup_eq_none_of_not_mem_keys k b1 hk.1,
      lookup_eq_none_of_not_mem_keys k b2 hk.2]

/-- Claim C7.  Two batches that are equal as mappings (every key looks up to
the same tensor) but list their keys in different mapping-iteration orders
produce the same encoder output and the same model forward-pass result:
both gather values by the Feature Schema's order, never by batch-dict order. -/
theorem C7_batch_key_order_irrelevant (b1 b2 : Batch)
    (h : ∀ k ∈ b1.map Prod.fst ++ b2.map Prod.fst,
      List.lookup k b1 = List.lookup k b2) :
    (∀ enc : FTTransformerEncoder, enc.call b1 = enc.call b2) ∧
    (∀ m : FTTransformer, m.call b1 = m.call b2) := by
  have hl := lookup_ext_of_keys b1 b2 h
  have hf : ∀ f : String, featureCol0 f b1 = featureCol0 f b2 :=
    fun f => featureCol0_ext f b1 b2 (hl f)
  exact ⟨fun enc => call_ext enc b1 b2 (fun f _ => hf f) (fun f _ => hf f),
    fun m => modelCall_ext m b1 b2 (fun f _ => hf f) (fun f _ => hf f)⟩

/-- The §8 batch with its keys in schema order. -/
def batchCityFirst : Batch := [("city", [[7]]), ("age", [[25]])]

/-- The same mapping with its keys presented in the opposite order. -/
def batchAgeFirst : Batch := [("age", [[25]]), ("city", [[7]])]

/-- The same component-0 values as `batchCityFirst`, with extra junk in the
later components of the last axis. -/
def batchJunk : Batch := [("city", [[7, 99]]), ("age", [[25, -3]])]

/-- Witness for `C7_batch_key_order_irrelevant` on two concrete key orders. -/
theorem C7_batch_key_order_irrelevant_witness :
    (∀ k ∈ batchCityFirst.map Prod.fst ++ batchAgeFirst.map Prod.fst,
      List.lookup k batchCityFirst = List.lookup k batchAgeFirst) ∧
    FTTransformerEncoder.call encScenario batchCityFirst =
      FTTransformerEncoder.call encScenario batchAgeFirst ∧
    FTTransformer.call modelScenario batchCityFirst =
      FTTransformer.call modelScenario batchAgeFirst :=
  ⟨by decide,
    (C7_batch_key_order_irrelevant batchCityFirst batchAgeFirst (by decide)).1
      encScenario,
    (C7_batch_key_order_irrelevant batchCityFirst batchAgeFirst (by decide)).2
      modelScenario⟩

/-- Claim C9.  The encoder reads only the component at index 0 along the last
axis of each schema feature's tensor: two batches agreeing on those index-0
slices produce identical encoder output, whatever the other components hold. -/
theorem C9_only_component_zero_matters (enc : FTTransformerEncoder)
    (b1 b2 : Batch)
    (h : ∀ f ∈ enc.categorical ++ enc.numerical,
      featureCol0 f b1 = featureCol0 f b2) :
    enc.call b1 = enc.call b2 :=
  call_ext enc b1 b2 (fun f hf => h f (List.mem_append_left _ hf))
    (fun f hf => h f (List.mem_append_right _ hf))

/-- Witness for `C9_only_component_zero_matters`: junk in the later last-axis
components does not change the encoder output. -/
theorem C9_only_component_zero_matters_witness :
    (∀ f ∈ encScenario.categorical ++ encScenario.numerical,
      featureCol0 f batchCityFirst = featureCol0 f batchJunk) ∧
    FTTransformerEncoder.call encScenario batchCityFirst =
      FTTransformerEncoder.call encScenario batchJunk :=
  ⟨by decide,
    C9_only_component_zero_matters encScenario batchCityFirst batchJunk (by decide)⟩

/-! ## Shape and positivity facts for the importances (claim C5) -/

/-- A `(batch, n)` matrix whose rows all have length `n` and non-negative
entries. -/
def GoodRows (n : Nat) (m : Tensor2) : Prop :=
  ∀ row ∈ m, row.length = n ∧ ∀ q ∈ row, 0 ≤ q

/-- An attention-weight tensor of shape `(B, heads, seqLen, seqLen)` whose
entries are all non-negative — the hypothesis the claim places on each
attention block's returned weights. -/
def GoodWeights (B heads seqLen : Nat) (w : Tensor4) : Prop :=
  w.length = B ∧ ∀ wb ∈ w, wb.length = heads ∧ ∀ wh ∈ wb,
    wh.length = seqLen ∧ ∀ r ∈ wh, r.length = seqLen ∧ ∀ q ∈ r, 0 ≤ q

instance (n : Nat) (m : Tensor2) : Decidable (GoodRows n m) := by
  unfold GoodRows
  infer_instance

instance (B heads seqLen : Nat) (w : Tensor4) :
    Decidable (GoodWeights B heads seqLen w) := by
  unfold GoodWeights
  infer_instance

/-- Adding two equal-length vectors with `vecAdd` keeps that length. -/
theorem vecAdd_length (a b : Tensor1) (h : a.length = b.length) :
    (vecAdd a b).length = a.length := by
  simp [vecAdd, h]

/-- Adding two non-negative vectors with `vecAdd` stays non-negative. -/
theorem vecAdd_nonneg (a : Tensor1) :
    ∀ (b : Tensor1), (∀ q ∈ a, 0 ≤ q) → (∀ q ∈ b, 0 ≤ q) →
      ∀ q ∈ vecAdd a b, 0 ≤ q := by
  induction a with
  | nil => intro b _ _ q hq; simp [vecAdd] at hq
  | cons x xs ih =>
    intro b ha hb q hq
    cases b with
    | nil => simp [vecAdd] at hq
    | cons y ys =>
      rw [vecAdd, List.zipWith_cons_cons] at hq
      rcases List.mem_cons.mp hq with hh | hh
      · exact hh ▸ add_nonneg (ha x (List.mem_cons_self x xs))
          (hb y (List.mem_cons_self y ys))
      · exact ih ys (fun u hu => ha u (List.mem_cons_of_mem x hu))
          (fun u hu => hb u (List.mem_cons_of_mem y hu)) q hh

/-- The sum of a nonempty list of equal-length non-negative vectors has that
length and stays non-negative. -/
theorem sumVecs_good (n : Nat) (vs : List Tensor1) (hne : vs ≠ [])
    (h : ∀ v ∈ vs, v.length = n ∧ ∀ q ∈ v, 0 ≤ q) :
    (sumVecs vs).length = n ∧ ∀ q ∈ sumVecs vs, 0 ≤ q := by
  induction vs with
  | nil => exact absurd rfl hne
  | cons v vs ih =>
    cases vs with
    | nil => simpa [sumVecs] using h v (List.mem_cons_self v [])
    | cons w ws =>
      have htail := ih (by simp) fun u hu => h u (List.mem_cons_of_mem v hu)
      have hv := h v (List.mem_cons_self v (w :: ws))
      have hs : sumVecs (v :: w :: ws) = vecAdd v (sumVecs (w :: ws)) := rfl
      rw [hs]
      refine ⟨?_, vecAdd_nonneg v _ hv.2 htail.2⟩
      rw [vecAdd_length v _ (by rw [hv.1, htail.1])]
      exact hv.1

/-- Every element of a `zipWith` comes from a pair of elements of the inputs. -/
theorem mem_zipWith_split {α β γ : Type} (f : α → β → γ) :
    ∀ (a : List α) (b : List β) (c : γ), c ∈ List.zipWith f a b →
      ∃ x, x ∈ a ∧ ∃ y, y ∈ b ∧ c = f x y
  | [], _, c, hc => by simp at hc
  | _ :: _, [], c, hc => by simp at hc
  | x :: xs, y :: ys, c, hc => by
    rw [List.zipWith_cons_cons] at hc
    rcases List.mem_cons.mp hc with hh | hh
    · exact ⟨x, List.mem_cons_self x xs, y, List.mem_cons_self y ys, hh⟩
    · obtain ⟨u, hu, v, hv, hc'⟩ := mem_zipWith_split f xs ys c hh
      exact ⟨u, List.mem_cons_of_mem x hu, v, List.mem_cons_of_mem y hv, hc'⟩

/-- Matrix addition `matAdd` preserves row length and non-negativity. -/
theorem matAdd_goodRows (n : Nat) (a b : Tensor2)
    (ha : GoodRows n a) (hb : GoodRows n b) : GoodRows n (matAdd a b) := by
  intro row hrow
  obtain ⟨ra, hra, rb, hrb, heq⟩ := mem_zipWith_split vecAdd a b row hrow
  subst heq
  have h1 := ha ra hra
  have h2 := hb rb hrb
  refine ⟨?_, vecAdd_nonneg ra rb h1.2 h2.2⟩
  rw [vecAdd_length ra rb (by rw [h1.1, h2.1])]
  exact h1.1

/-- Matrix summation `sumMats` preserves row length and non-negativity. -/
theorem sumMats_goodRows (n : Nat) (ms : List Tensor2)
    (h : ∀ m ∈ ms, GoodRows n m) : GoodRows n (sumMats ms) := by
  induction ms with
  | nil => intro row hrow; simp [sumMats] at hrow
  | cons m ms ih =>
    cases ms with
    | nil => simpa [sumMats] using h m (List.mem_cons_self m [])
    | cons m2 ms2 =>
      have hs : sumMats (m :: m2 :: ms2) = matAdd m (sumMats (m2 :: ms2)) := rfl
      rw [hs]
      exact matAdd_goodRows n _ _ (h m (List.mem_cons_self m (m2 :: ms2)))
        (ih fun u hu => h u (List.mem_cons_of_mem m hu))

/-- Dividing a good matrix elementwise by a non-negative scalar keeps row
length and non-negativity. -/
theorem matDivScalar_goodRows (n : Nat) (t : Tensor2) (c : ℚ) (hc : 0 ≤ c)
    (h : GoodRows n t) : GoodRows n (matDivScalar t c) := by
  intro row hrow
  obtain ⟨r, hr, hreq⟩ := List.mem_map.mp hrow
  subst hreq
  refine ⟨by simp [(h r hr).1], ?_⟩
  intro q hq
  obtain ⟨u, hu, hq⟩ := List.mem_map.mp hq
  subst hq
  exact div_nonneg ((h r hr).2 u hu) hc

/-- One block's importance contribution
`tf.reduce_sum(att_weights[:, :, 0, :], axis=1)` has rows of length `seqLen`
with non-negative entries, given well-shaped non-negative weights and at least
one head. -/
theorem blockImp_goodRows (B heads seqLen : Nat) (hheads : 0 < heads)
    (w : Tensor4) (hw : GoodWeights B heads seqLen w) :
    GoodRows seqLen (headsSum (row0Slice w)) := by
  intro row hrow
  simp only [headsSum, row0Slice, List.map_map, List.mem_map, Function.comp] at hrow
  obtain ⟨wb, hwb, hroweq⟩ := hrow
  subst hroweq
  have hwb' := hw.2 wb hwb
  apply sumVecs_good seqLen
  · have hlen : (wb.map fun wh => wh.headD []).length = heads := by
      rw [List.length_map, hwb'.1]
    intro hcon
    rw [hcon] at hlen
    simp only [List.length_nil] at hlen
    omega
  · intro v hv
    obtain ⟨wh, hwh, hveq⟩ := List.mem_map.mp hv
    subst hveq
    have hwh' := hwb'.2 wh hwh
    cases wh with
    | nil =>
      simp only [List.headD_nil]
      constructor
      · simpa using hwh'.1
      · intro q hq
        simp at hq
    | cons r rest =>
      simp only [List.headD_cons]
      exact hwh'.2 r (List.mem_cons_self r rest)

/-- Claim C5.  For an explainable encoder with at least one head, if every
block's attention weights along the trajectory are well-shaped
`(B, heads, seq_len, seq_len)` tensors of non-negative entries (with
`seq_len = num_features`), then `call` succeeds and every row of the returned
importances has length `num_features` and only non-negative entries. -/
theorem C5_importances_length_nonneg (enc : FTTransformerEncoder)
    (inputs : Batch) (x : Tensor3) (B : Nat)
    (hexp : enc.explainable = true)
    (hx : enc.inputSeq inputs = Except.ok x)
    (hheads : 0 < enc.heads)
    (hw : ∀ p ∈ blockTrace enc.transformers x,
      GoodWeights B enc.heads (enc.categorical.length + enc.numerical.length)
        (p.1.attWeights p.2)) :
    ∃ seqOut imp,
      enc.call inputs = Except.ok (seqOut, some imp) ∧
      ∀ row ∈ imp,
        row.length = enc.categorical.length + enc.numerical.length ∧
        ∀ q ∈ row, 0 ≤ q := by
  refine ⟨runBlocks enc.transformers x,
    matDivScalar
      (sumMats ((blockTrace enc.transformers x).map fun p =>
        headsSum (row0Slice (p.1.attWeights p.2))))
      ((enc.depth * enc.heads : Nat) : ℚ), ?_, ?_⟩
  · simp [FTTransformerEncoder.call, hx, hexp, runBlocksExpl_eq, except_ok_bind]
  · apply matDivScalar_goodRows _ _ _ (by positivity)
    apply sumMats_goodRows
    intro m hm
    obtain ⟨p, hp, hmeq⟩ := List.mem_map.mp hm
    subst hmeq
    exact blockImp_goodRows B enc.heads _ hheads _ (hw p hp)

/-- Witness for `C5_importances_length_nonneg` on the §8 explainable scenario
(one block, two heads, all-ones weights). -/
theorem C5_importances_length_nonneg_witness :
    encScenarioExpl.explainable = true ∧
    encScenarioExpl.inputSeq batchScenario = Except.ok xScenario ∧
    0 < encScenarioExpl.heads ∧
    (∀ p ∈ blockTrace encScenarioExpl.transformers xScenario,
      GoodWeights 1 encScenarioExpl.heads
        (encScenarioExpl.categorical.length + encScenarioExpl.numerical.length)
        (p.1.attWeights p.2)) ∧
    (∃ seqOut imp,
      encScenarioExpl.call batchScenario = Except.ok (seqOut, some imp) ∧
      ∀ row ∈ imp,
        row.length = encScenarioExpl.categorical.length +
          encScenarioExpl.numerical.length ∧
        ∀ q ∈ row, 0 ≤ q) :=
  ⟨rfl, rfl, by decide, by decide,
    C5_importances_length_nonneg encScenarioExpl batchScenario xScenario 1
      rfl rfl (by decide) (by decide)⟩

/-! ## The loss (claim C8) -/

/-- Row-level: subtract-then-square equals the squared difference over the
zipped row. -/
theorem zipWith_sub_map_sq (r : Tensor1) :
    ∀ s : Tensor1,
      (List.zipWith (· - ·) r s).map (fun q => q * q) =
        (r.zip s).map fun p => (p.1 - p.2) * (p.1 - p.2) := by
  induction r with
  | nil => intro s; simp
  | cons a r ih =>
    intro s
    cases s with
    | nil => simp
    | cons b s => simp [ih]

/-- Tensor-level: the flattened squared differences equal the squared
differences of the zipped flattened tensors, for equal row profiles. -/
theorem tfSquare_sub_flatten (y_true : Tensor2) :
    ∀ y_pred : Tensor2, y_true.map List.length = y_pred.map List.length →
      (tfSquare (tfSub y_true y_pred)).flatten =
        (y_true.flatten.zip y_pred.flatten).map fun p => (p.1 - p.2) * (p.1 - p.2) := by
  induction y_true with
  | nil =>
    intro y_pred h
    cases y_pred with
    | nil => rfl
    | cons s b => simp at h
  | cons r a ih =>
    intro y_pred h
    cases y_pred with
    | nil => simp at h
    | cons s b =>
      simp only [List.map_cons, List.cons.injEq] at h
      simp only [tfSub, tfSquare, List.zipWith_cons_cons, List.map_cons,
        List.flatten_cons]
      rw [List.zip_append h.1, List.map_append, zipWith_sub_map_sq r s]
      have ihb := ih b h.2
      simp only [tfSub, tfSquare] at ihb
      rw [ihb]

/-- Claim C8.  For equal-shape target and reconstruction tensors, the training
loss `masked_mse` is exactly the unweighted mean over all elements of the
squared difference: every position, masked or unmasked, contributes equally
and no masking weight is applied. -/
theorem C8_loss_is_unweighted_mse (y_true y_pred : Tensor2)
    (h : y_true.map List.length = y_pred.map List.length) :
    FTTransformer.masked_mse y_true y_pred = specMeanSqError y_true y_pred := by
  unfold FTTransformer.masked_mse tfReduceMean specMeanSqError
  rw [← List.sum_flatten, ← List.length_flatten,
    tfSquare_sub_flatten y_true y_pred h, List.length_map]

/-- Witness for `C8_loss_is_unweighted_mse` at concrete tensors. -/
theorem C8_loss_is_unweighted_mse_witness :
    (([[1, 2], [3]] : Tensor2).map List.length =
      ([[0, 1], [5]] : Tensor2).map List.length) ∧
    FTTransformer.masked_mse [[1, 2], [3]] [[0, 1], [5]] =
      specMeanSqError [[1, 2], [3]] [[0, 1], [5]] :=
  ⟨by decide, C8_loss_is_unweighted_mse [[1, 2], [3]] [[0, 1], [5]] (by decide)⟩
